import Mathlib

/-!
Verification development for the KIB movie-database backend.

The TypeScript services (`RatingsService`, `UsersService`, `MoviesService`,
`TmdbService`, `TmdbSyncService`) wrap ORM repository calls.  We embed the
relational store as explicit lists of rows and each service method as a pure
state-passing function returning `Except AppError`.  Numeric column values
(`decimal(2,1)` ratings, `decimal(3,1)` aggregates) are modelled as `ℚ`;
generated primary keys are passed in explicitly as `freshId` arguments;
`Observable` pipelines that read and write are modelled as functions from the
store to `Except AppError (store × result)`, where an `error` result means the
pipeline threw before completing (TypeORM repository calls that did not run
leave the store untouched).
-/

namespace Kib

/-- Row of the `ratings` table (src/entities/rating.entity.ts).  The entity is
declared `@Unique(['user','movie'])` with generated primary key `id`.
`createdAt`/`updatedAt` audit columns are omitted (no modelled claim reads
them). -/
structure Rating where
  id : Nat
  userId : Nat
  movieId : Nat
  rating : ℚ
  review : Option String
deriving DecidableEq, Repr

/-- Row of the `movies` table (movie.entity.ts).  Nullable columns are
`Option`; `releaseDate` is kept as its source string; relation properties
(`ratings`, `watchlistedBy`, `favoritedBy`) and audit columns are omitted. -/
structure Movie where
  id : Nat
  tmdbId : Nat
  title : String
  overview : Option String
  posterPath : Option String
  backdropPath : Option String
  releaseDate : Option String
  voteAverage : ℚ
  voteCount : Nat
  popularity : ℚ
  genreIds : List Nat
  genres : Option (List (Nat × String))
  originalLanguage : Option String
  originalTitle : Option String
  adult : Bool
  video : Bool
  userRatingAverage : Option ℚ
  userRatingCount : Nat
deriving DecidableEq, Repr

/-- Row of the `users` table (user.entity.ts), with the two many-to-many
associations (`user_watchlist`, `user_favorites`) inlined as the lists of
joined movies, as they appear on a `User` loaded with relations. -/
structure User where
  id : Nat
  username : String
  email : String
  password : String
  firstName : Option String
  lastName : Option String
  isActive : Bool
  watchlist : List Movie
  favorites : List Movie
deriving DecidableEq, Repr

/-- The relational store: the rows backing the three repositories used by the
modelled service methods. -/
structure Db where
  movies : List Movie
  users : List User
  ratings : List Rating
deriving DecidableEq, Repr

/-- Errors thrown by the services: `NotFoundException`, `ConflictException`,
`UnauthorizedException` and plain `Error(...)`. -/
inductive AppError where
  | notFound (message : String)
  | conflict (message : String)
  | unauthorized (message : String)
  | plainError (message : String)
deriving DecidableEq, Repr

def movieNotFoundMsg (id : Nat) : String :=
  "Movie with ID " ++ toString id ++ " not found"

def userNotFoundMsg (id : Nat) : String :=
  "User with ID " ++ toString id ++ " not found"

def ratingNotFoundMsg (id : Nat) : String :=
  "Rating with ID " ++ toString id ++ " not found"

/-- `movieRepository.findOne({ where: { id } })`. -/
def findMovie (db : Db) (id : Nat) : Option Movie :=
  db.movies.find? (fun m => m.id == id)

/-- `userRepository.findOne({ where: { id } })`. -/
def findUser (db : Db) (id : Nat) : Option User :=
  db.users.find? (fun u => u.id == id)

/-- `ratingRepository.findOne({ where: { userId, movieId } })`. -/
def findRating (db : Db) (userId movieId : Nat) : Option Rating :=
  db.ratings.find? (fun r => r.userId == userId && r.movieId == movieId)

/-- `ratingRepository.findOne({ where: { id } })`. -/
def findRatingById (db : Db) (id : Nat) : Option Rating :=
  db.ratings.find? (fun r => r.id == id)

/-- `repository.save` on an entity that carries a primary key: update the row
with that key when present, insert otherwise. -/
def saveRatingRow (rows : List Rating) (r : Rating) : List Rating :=
  if rows.any (fun s => s.id == r.id) then
    rows.map (fun s => if s.id == r.id then r else s)
  else rows ++ [r]

/-- `repository.save` for user rows (same update-by-primary-key semantics). -/
def saveUserRow (rows : List User) (u : User) : List User :=
  if rows.any (fun x => x.id == u.id) then
    rows.map (fun x => if x.id == u.id then u else x)
  else rows ++ [u]

/-- JavaScript `a || b` on an optional string: `undefined` and `''` are falsy. -/
def jsOrStr (a b : Option String) : Option String :=
  match a with
  | some t => if t = "" then b else some t
  | none => b

/-- JavaScript `Math.round`: round half toward positive infinity. -/
def jsRound (x : ℚ) : ℤ := ⌊x + 1 / 2⌋

namespace MoviesService

/-- `MoviesService.updateRatingStatistics$` (movies.service.ts:346-387): a
`leftJoin` aggregate query (`AVG(rating.rating)`, `COUNT(rating.id)`) for one
movie, then `repository.update(movieId, { userRatingAverage: avg || 0,
userRatingCount: count || 0 })`.  When the movie id matches no row the raw
query yields nothing and a `NotFoundException` is thrown. -/
def updateRatingStatistics (db : Db) (movieId : Nat) : Except AppError Db :=
  match findMovie db movieId with
  | none => .error (.notFound (movieNotFoundMsg movieId))
  | some _ =>
    let rs := db.ratings.filter (fun r => r.movieId == movieId)
    let avg : ℚ := if rs.isEmpty then 0 else (rs.map (fun r => r.rating)).sum / (rs.length : ℚ)
    .ok { db with
          movies := db.movies.map (fun m =>
            if m.id == movieId then
              { m with userRatingAverage := some avg, userRatingCount := rs.length }
            else m) }

end MoviesService

namespace RatingsService

/-- Body of `CreateRatingDto` (rating value plus optional review). -/
structure CreateRatingDto where
  rating : ℚ
  review : Option String
deriving DecidableEq, Repr

/-- Body of `UpdateRatingDto` (both fields optional). -/
structure UpdateRatingDto where
  rating : Option ℚ
  review : Option String
deriving DecidableEq, Repr

/-- `RatingsService.createOrUpdate$` (ratings.service.ts:107-169): look up the
movie, the user and any existing rating for `(userId, movieId)`; throw
`NotFoundException` when the movie or the user is missing; otherwise either
overwrite the existing row's value (and review, via JS `||`) and save it, or
create and save a new row; finally refresh the movie's rating statistics. -/
def createOrUpdate (db : Db) (userId movieId : Nat) (dto : CreateRatingDto)
    (freshId : Nat) : Except AppError (Db × Rating) :=
  match findMovie db movieId with
  | none => .error (.notFound (movieNotFoundMsg movieId))
  | some _ =>
    match findUser db userId with
    | none => .error (.notFound (userNotFoundMsg userId))
    | some _ =>
      match findRating db userId movieId with
      | some existingRating =>
        let saved : Rating :=
          { existingRating with
              rating := dto.rating
              review := jsOrStr dto.review existingRating.review }
        let db1 : Db := { db with ratings := saveRatingRow db.ratings saved }
        (MoviesService.updateRatingStatistics db1 movieId).map (fun db2 => (db2, saved))
      | none =>
        let saved : Rating :=
          { id := freshId, userId := userId, movieId := movieId
            rating := dto.rating, review := dto.review }
        let db1 : Db := { db with ratings := db.ratings ++ [saved] }
        (MoviesService.updateRatingStatistics db1 movieId).map (fun db2 => (db2, saved))

/-- `RatingsService.findByMovie$`: all ratings of one movie (the `createdAt`
ordering clause is dropped as audit columns are not modelled). -/
def findByMovie (db : Db) (movieId : Nat) : List Rating :=
  db.ratings.filter (fun r => r.movieId == movieId)

/-- An entry of the `distribution` record: integer-floor key and count, in
object insertion order. -/
def bumpKey (acc : List (ℤ × Nat)) (key : ℤ) : List (ℤ × Nat) :=
  if acc.any (fun kv => kv.1 == key) then
    acc.map (fun kv => if kv.1 == key then (kv.1, kv.2 + 1) else kv)
  else acc ++ [(key, 1)]

/-- Shape of `RatingStatsDto` with the `Record<string, number>` distribution
modelled as the insertion-ordered association list it is built as. -/
structure RatingStatsDto where
  average : ℚ
  count : Nat
  distribution : List (ℤ × Nat)
deriving DecidableEq, Repr

/-- `RatingsService.getMovieRatingStats$` (ratings.service.ts:359-400): empty
stats for a movie with no ratings, otherwise the mean of the values put
through `Math.round(average * 10) / 10` plus a floor-keyed histogram. -/
def getMovieRatingStats (db : Db) (movieId : Nat) : RatingStatsDto :=
  let ratings := findByMovie db movieId
  if ratings.isEmpty then { average := 0, count := 0, distribution := [] }
  else
    let sum := (ratings.map (fun r => r.rating)).sum
    let average := sum / (ratings.length : ℚ)
    let distribution := ratings.foldl (fun acc r => bumpKey acc ⌊r.rating⌋) []
    { average := (jsRound (average * 10) : ℚ) / 10
      count := ratings.length
      distribution := distribution }

/-- Lookup in the distribution association list (JS object property read). -/
def lookupKey (d : List (ℤ × Nat)) (k : ℤ) : Option Nat :=
  (d.find? (fun kv => kv.1 == k)).map (fun kv => kv.2)

/-- `RatingsService.update$` (ratings.service.ts:289-325): fetch by id
(`NotFoundException` when absent), reject callers that do not own the rating,
otherwise apply the defined fields of the dto, save, and refresh the movie's
statistics. -/
def update (db : Db) (id userId : Nat) (dto : UpdateRatingDto) :
    Except AppError (Db × Rating) :=
  match findRatingById db id with
  | none => .error (.notFound (ratingNotFoundMsg id))
  | some rating =>
    if rating.userId != userId then
      .error (.plainError "You can only update your own ratings")
    else
      let saved : Rating :=
        { rating with
            rating := dto.rating.getD rating.rating
            review := dto.review.or rating.review }
      let db1 : Db := { db with ratings := saveRatingRow db.ratings saved }
      (MoviesService.updateRatingStatistics db1 rating.movieId).map (fun db2 => (db2, saved))

/-- `RatingsService.remove$` (ratings.service.ts:330-354): fetch by id,
reject callers that do not own the rating, otherwise delete the row and
refresh the movie's statistics. -/
def remove (db : Db) (id userId : Nat) : Except AppError Db :=
  match findRatingById db id with
  | none => .error (.notFound (ratingNotFoundMsg id))
  | some rating =>
    if rating.userId != userId then
      .error (.plainError "You can only delete your own ratings")
    else
      let db1 : Db := { db with ratings := db.ratings.filter (fun s => !(s.id == rating.id)) }
      MoviesService.updateRatingStatistics db1 rating.movieId

end RatingsService

namespace UsersService

/-- Body of `CreateUserDto` (create-user.dto.ts). -/
structure CreateUserDto where
  username : String
  email : String
  password : String
  firstName : Option String
  lastName : Option String
deriving DecidableEq, Repr

/-- The signed JWT payload (users.service.ts:25-29): exactly `sub`,
`username` and `email`. -/
structure JwtPayload where
  sub : Nat
  username : String
  email : String
deriving DecidableEq, Repr

/-- A `User` after `const { password: _, ...userWithoutPassword } = user`:
the same record with no `password` field. -/
structure UserWithoutPassword where
  id : Nat
  username : String
  email : String
  firstName : Option String
  lastName : Option String
  isActive : Bool
  watchlist : List Movie
  favorites : List Movie
deriving DecidableEq, Repr

/-- The rest-spread that strips `password` from the user record. -/
def stripPassword (u : User) : UserWithoutPassword :=
  { id := u.id, username := u.username, email := u.email
    firstName := u.firstName, lastName := u.lastName, isActive := u.isActive
    watchlist := u.watchlist, favorites := u.favorites }

/-- `AuthResponse` (users.service.ts:31-34); `jwtService.sign(payload)` is
modelled as the payload itself, since only the signed claims matter here. -/
structure AuthResponse where
  user : UserWithoutPassword
  accessToken : JwtPayload
deriving DecidableEq, Repr

/-- `UsersService.create$` (users.service.ts:51-87): look up the requested
username and email; `ConflictException` when either exists (username checked
first); otherwise save a new user.  `hash` stands for the `@BeforeInsert`
bcrypt hook on the entity and `freshId` for the generated key. -/
def create (db : Db) (dto : CreateUserDto) (hash : String → String) (freshId : Nat) :
    Except AppError (Db × User) :=
  let existingUsername := db.users.find? (fun x => x.username == dto.username)
  let existingEmail := db.users.find? (fun x => x.email == dto.email)
  if existingUsername.isSome then .error (.conflict "Username already exists")
  else if existingEmail.isSome then .error (.conflict "Email already exists")
  else
    let user : User :=
      { id := freshId, username := dto.username, email := dto.email
        password := hash dto.password, firstName := dto.firstName
        lastName := dto.lastName, isActive := true, watchlist := [], favorites := [] }
    .ok ({ db with users := db.users ++ [user] }, user)

/-- `UsersService.findByUsernameOrEmail$` (users.service.ts:135-160). -/
def findByUsernameOrEmail (db : Db) (value : String) : Option User :=
  db.users.find? (fun u => u.username == value || u.email == value)

/-- `UsersService.validateUser$` (users.service.ts:199-219): look the user up
by username or email and check the password with `bcrypt.compare` (abstracted
as `checkPw password storedHash`); every failure is collapsed by the
`catchError` into `UnauthorizedException('Invalid credentials')`. -/
def validateUser (checkPw : String → String → Bool) (db : Db)
    (username password : String) : Except AppError User :=
  match findByUsernameOrEmail db username with
  | none => .error (.unauthorized "Invalid credentials")
  | some user =>
    if checkPw password user.password then .ok user
    else .error (.unauthorized "Invalid credentials")

/-- `UsersService.login$` (users.service.ts:224-250): validate the
credentials, sign `{ sub, username, email }`, and answer with the
password-stripped user record. -/
def login (checkPw : String → String → Bool) (db : Db)
    (username password : String) : Except AppError AuthResponse :=
  (validateUser checkPw db username password).map (fun user =>
    { user := stripPassword user
      accessToken := { sub := user.id, username := user.username, email := user.email } })

/-- `UsersService.addToWatchlist$` (users.service.ts:255-292): load the user
(`findOne$` throws when absent) and the movie (`NotFoundException` when
absent); when the movie id is already in the watchlist return the user
without saving, otherwise push the movie and save. -/
def addToWatchlist (db : Db) (userId movieId : Nat) : Except AppError (Db × User) :=
  match findUser db userId with
  | none => .error (.notFound (userNotFoundMsg userId))
  | some user =>
    match findMovie db movieId with
    | none => .error (.notFound (movieNotFoundMsg movieId))
    | some movie =>
      if user.watchlist.any (fun m => m.id == movieId) then .ok (db, user)
      else
        let user' : User := { user with watchlist := user.watchlist ++ [movie] }
        .ok ({ db with users := saveUserRow db.users user' }, user')

/-- `UsersService.removeFromWatchlist$` (users.service.ts:297-319): load the
user, filter every movie with the given id out of the watchlist, save. -/
def removeFromWatchlist (db : Db) (userId movieId : Nat) : Except AppError (Db × User) :=
  match findUser db userId with
  | none => .error (.notFound (userNotFoundMsg userId))
  | some user =>
    let user' : User := { user with watchlist := user.watchlist.filter (fun m => !(m.id == movieId)) }
    .ok ({ db with users := saveUserRow db.users user' }, user')

end UsersService

namespace MoviesService

/-- Character-list substring test backing `ILike('%query%')`. -/
def charsContain (pat : List Char) : List Char → Bool
  | [] => pat.isEmpty
  | c :: rest => pat.isPrefixOf (c :: rest) || charsContain pat rest

/-- Case-insensitive containment: the semantics of `title ILIKE '%query%'`. -/
def iLike (s pat : String) : Bool :=
  charsContain pat.toLower.toList s.toLower.toList

/-- `meta` of `PaginatedResponseDto` (shape from the controller test
fixtures). -/
structure PaginationMeta where
  page : Nat
  limit : Nat
  totalItems : Nat
  totalPages : Nat
  hasNext : Bool
  hasPrevious : Bool
deriving DecidableEq, Repr

structure PaginatedResponse where
  data : List Movie
  meta : PaginationMeta
deriving DecidableEq, Repr

/-- Modelled from the spec: the `PaginatedResponseDto` constructor is not
under src (only its callers and the controller test fixture are).  Per the
spec's "pagination is an offset/limit query" with "totalPages computed from
the total record count and l", `totalPages = ceil(total / limit)`; the
remaining meta fields follow the test fixture
(movies.controller.spec.ts:39-49). -/
def paginatedResponse (data : List Movie) (total page limit : Nat) : PaginatedResponse :=
  let totalPages := (total + limit - 1) / limit
  { data := data
    meta := { page := page, limit := limit, totalItems := total
              totalPages := totalPages
              hasNext := page < totalPages, hasPrevious := 1 < page } }

/-- The `ILike` filter plus `popularity DESC` ordering of
`MoviesService.search$`. -/
def searchMatching (db : Db) (query : String) : List Movie :=
  List.insertionSort (fun a b => b.popularity ≤ a.popularity)
    (db.movies.filter (fun m => iLike m.title query))

/-- `MoviesService.search$` (movies.service.ts:189-216):
`findAndCount({ where: title ILike %query%, skip: (page-1)*limit,
take: limit, order: popularity DESC })` wrapped in a paginated response. -/
def search (db : Db) (query : String) (page limit : Nat) : PaginatedResponse :=
  let matching := searchMatching db query
  paginatedResponse ((matching.drop ((page - 1) * limit)).take limit)
    matching.length page limit

end MoviesService

namespace TmdbService

/-- One step of the RxJS `retry({ count, delay })` operator: run attempt `i`;
on error, when retries remain, wait `delayOf k` (`k` = 1-based retry number)
and resubscribe; when none remain the last error is emitted.  The returned
list collects the delays actually waited. -/
def retryWithDelay {α : Type} (attempts : Nat → Except String α)
    (delayOf : Nat → Nat) : Nat → Nat → Except String α × List Nat
  | i, 0 => (attempts i, [])
  | i, r + 1 =>
    match attempts i with
    | .ok a => (.ok a, [])
    | .error _ =>
      let rest := retryWithDelay attempts delayOf (i + 1) r
      (rest.1, delayOf (i + 1) :: rest.2)

/-- `retry({ count, delay })` started at the first subscription. -/
def rxRetry {α : Type} (attempts : Nat → Except String α) (count : Nat)
    (delayOf : Nat → Nat) : Except String α × List Nat :=
  retryWithDelay attempts delayOf 0 count

/-- The backoff used by every TMDB fetch:
`delay: (error, retryCount) => timer(1000 * retryCount)`. -/
def linearBackoff (retryCount : Nat) : Nat := 1000 * retryCount

/-- The retry pipeline shared by `getMovieDetails$`, `getPopularMovies$` and
the other fetches (tmdb.service.ts): `retry({ count: 3, delay: (error,
retryCount) => timer(1000 * retryCount) })`, after which `catchError` logs
and rethrows.  `attempts i` is the outcome of the `i`-th HTTP request. -/
def fetchWithRetry {α : Type} (attempts : Nat → Except String α) :
    Except String α × List Nat :=
  rxRetry attempts 3 linearBackoff

end TmdbService

namespace TmdbSyncService

/-- A TMDB API movie payload (`TmdbMovie` / `TmdbMovieDetails`,
tmdb.service.ts:31-56); `genres` is present only on the details variant
(`'genres' in tmdbMovie`). -/
structure TmdbMovie where
  id : Nat
  title : String
  overview : String
  poster_path : Option String
  backdrop_path : Option String
  release_date : Option String
  vote_average : ℚ
  vote_count : Nat
  popularity : ℚ
  genre_ids : Option (List Nat)
  original_language : String
  original_title : String
  adult : Bool
  video : Bool
  genres : Option (List (Nat × String))
deriving DecidableEq, Repr

/-- Fresh generated key for an inserted movie row. -/
def nextMovieId (rows : List Movie) : Nat :=
  (rows.map (fun m => m.id)).foldr max 0 + 1

/-- `{ ...existingMovie, ...movieData, userRatingAverage:
existingMovie.userRatingAverage, userRatingCount:
existingMovie.userRatingCount }` (part_005:154-164): every external-metadata
field overwritten from the TMDB payload, the user-rating aggregates copied
from the stored row.  `releaseDate`/`genres` keep the stored value when the
payload has none (an `undefined` column is skipped by `save`; the `genres`
key is only added for the details variant). -/
def mergeMovie (existingMovie : Movie) (tm : TmdbMovie) : Movie :=
  { id := existingMovie.id
    tmdbId := tm.id
    title := tm.title
    overview := some tm.overview
    posterPath := tm.poster_path
    backdropPath := tm.backdrop_path
    releaseDate := match tm.release_date with
      | some d => some d
      | none => existingMovie.releaseDate
    voteAverage := tm.vote_average
    voteCount := tm.vote_count
    popularity := tm.popularity
    genreIds := tm.genre_ids.getD []
    genres := match tm.genres with
      | some g => some g
      | none => existingMovie.genres
    originalLanguage := some tm.original_language
    originalTitle := some tm.original_title
    adult := tm.adult
    video := tm.video
    userRatingAverage := existingMovie.userRatingAverage
    userRatingCount := existingMovie.userRatingCount }

/-- A freshly created movie row (`repository.create(movieData)` then `save`):
database defaults apply to the user-rating aggregates. -/
def newMovieFrom (freshId : Nat) (tm : TmdbMovie) : Movie :=
  { id := freshId
    tmdbId := tm.id
    title := tm.title
    overview := some tm.overview
    posterPath := tm.poster_path
    backdropPath := tm.backdrop_path
    releaseDate := tm.release_date
    voteAverage := tm.vote_average
    voteCount := tm.vote_count
    popularity := tm.popularity
    genreIds := tm.genre_ids.getD []
    genres := tm.genres
    originalLanguage := some tm.original_language
    originalTitle := some tm.original_title
    adult := tm.adult
    video := tm.video
    userRatingAverage := none
    userRatingCount := 0 }

/-- `TmdbSyncService.saveMovie` (part_005:125-178): find by `tmdbId`; update
the matched row preserving its user-rating data, or insert a new row. -/
def saveMovie (rows : List Movie) (tm : TmdbMovie) : List Movie :=
  match rows.find? (fun m => m.tmdbId == tm.id) with
  | some existingMovie =>
    let updated := mergeMovie existingMovie tm
    rows.map (fun m => if m.id == existingMovie.id then updated else m)
  | none => rows ++ [newMovieFrom (nextMovieId rows) tm]

/-- Observable timeline of the sync loop: each attempted save, and each
`delay(100)` rate-limiting wait. -/
inductive SyncEvent where
  | saveAttempt (tmdbId : Nat) (succeeded : Bool)
  | waitDelay (ms : Nat)
deriving DecidableEq, Repr

/-- The `concatMap((movie) => this.saveMovie(movie).pipe(delay(100),
catchError(... of(null))))` loop of `syncInitialMovies` (part_005:94-109) and
`syncPopularMovies` (part_005:187-199).  `concatMap` runs one inner save at a
time in input order; `delay(100)` holds the emitted value of a successful
save for 100 ms (an error skips the delay and is caught, replaced by `null`,
and the loop continues).  `failsAt i` says whether the `i`-th save errors;
the outputs are the final store, the per-movie results (`null` on failure)
and the event timeline. -/
def syncLoop (failsAt : Nat → Bool) (rows : List Movie) (idx : Nat) :
    List TmdbMovie → List Movie × List (Option Nat) × List SyncEvent
  | [] => (rows, [], [])
  | tm :: rest =>
    if failsAt idx then
      let next := syncLoop failsAt rows (idx + 1) rest
      (next.1, none :: next.2.1, SyncEvent.saveAttempt tm.id false :: next.2.2)
    else
      let next := syncLoop failsAt (saveMovie rows tm) (idx + 1) rest
      (next.1, some tm.id :: next.2.1,
        SyncEvent.saveAttempt tm.id true :: SyncEvent.waitDelay 100 :: next.2.2)

/-- The `new Map(...)` deduplication of `syncInitialMovies` (part_005:88-92):
JS `Map.set` keeps the first insertion position of a key and overwrites its
value. -/
def dedupByTmdbId (l : List TmdbMovie) : List TmdbMovie :=
  l.foldl (fun acc tm =>
    if acc.any (fun x => x.id == tm.id) then
      acc.map (fun x => if x.id == tm.id then tm else x)
    else acc ++ [tm]) []

/-- `TmdbSyncService.syncPopularMovies` (part_005:183-208): the sequential
save loop over the first page of popular movies. -/
def syncPopularMovies (failsAt : Nat → Bool) (rows : List Movie)
    (results : List TmdbMovie) : List Movie × List (Option Nat) × List SyncEvent :=
  syncLoop failsAt rows 0 results

/-- `TmdbSyncService.syncInitialMovies` (part_005:85-120): combine the
fetched categories, deduplicate by TMDB id, then run the sequential save
loop. -/
def syncInitialMovies (failsAt : Nat → Bool) (rows : List Movie)
    (fetched : List TmdbMovie) : List Movie × List (Option Nat) × List SyncEvent :=
  syncLoop failsAt rows 0 (dedupByTmdbId fetched)

/-- The TMDB ids of the attempted saves, in timeline order. -/
def saveIds : List SyncEvent → List Nat
  | [] => []
  | .saveAttempt t _ :: rest => t :: saveIds rest
  | .waitDelay _ :: rest => saveIds rest

/-- Checks that every successful save is immediately followed by the 100 ms
rate-limiting wait. -/
def delaysFollowSaves : List SyncEvent → Bool
  | [] => true
  | .saveAttempt _ true :: .waitDelay 100 :: rest => delaysFollowSaves rest
  | .saveAttempt _ true :: _ => false
  | .saveAttempt _ false :: rest => delaysFollowSaves rest
  | .waitDelay _ :: rest => delaysFollowSaves rest

end TmdbSyncService

/-! ### Store invariants -/

/-- The `(user, movie)` key of a rating row. -/
def pairOf (r : Rating) : Nat × Nat := (r.userId, r.movieId)

/-- The database constraint `@Unique(['user','movie'])` on the `ratings`
table: no two rows share a `(user, movie)` key. -/
def PairUnique (l : List Rating) : Prop := (l.map pairOf).Nodup

/-- Number of rating rows for one `(user, movie)` key. -/
def countPair (l : List Rating) (u m : Nat) : Nat :=
  (l.filter (fun r => r.userId == u && r.movieId == m)).length

/-- Primary-key uniqueness of the `ratings` table. -/
def IdsUnique (l : List Rating) : Prop := (l.map (fun r => r.id)).Nodup

/-- Foreign-key integrity: every rating row references a stored movie. -/
def movieExists (db : Db) (movieId : Nat) : Bool :=
  db.movies.any (fun mv => mv.id == movieId)

/-- The user-rating aggregate columns of each movie row, keyed by id. -/
def ratingStatsView (rows : List Movie) : List (Nat × Option ℚ × Nat) :=
  rows.map (fun m => (m.id, m.userRatingAverage, m.userRatingCount))

/-- Every row of `old` still has a row in `new` with the same id and the
same user-rating aggregates. -/
def StatsPreserved (old new : List Movie) : Prop :=
  ∀ mv ∈ old, ∃ mv', mv' ∈ new ∧ mv'.id = mv.id ∧
    mv'.userRatingAverage = mv.userRatingAverage ∧
    mv'.userRatingCount = mv.userRatingCount

/-! ### Helper lemmas -/

lemma countPair_le_one_of_pairUnique {l : List Rating} (h : PairUnique l)
    (u m : Nat) : countPair l u m ≤ 1 := by
  induction l with
  | nil => simp [countPair]
  | cons a t ih =>
    rw [PairUnique, List.map_cons, List.nodup_cons] at h
    by_cases ha : (a.userId == u && a.movieId == m) = true
    · have hpair : pairOf a = (u, m) := by
        have := ha
        simp only [Bool.and_eq_true, beq_iff_eq] at this
        simp [pairOf, this.1, this.2]
      have ht : t.filter (fun r => r.userId == u && r.movieId == m) = [] := by
        rw [List.filter_eq_nil_iff]
        intro r hr hpred
        refine h.1 ?_
        have hpr : pairOf r = (u, m) := by
          simp only [Bool.and_eq_true, beq_iff_eq] at hpred
          simp [pairOf, hpred.1, hpred.2]
        rw [hpair, ← hpr]
        exact List.mem_map_of_mem pairOf hr
      simp [countPair, List.filter_cons, ha, ht]
    · have ha' : (a.userId == u && a.movieId == m) = false := by
        revert ha; cases a.userId == u && a.movieId == m <;> simp
      have : countPair (a :: t) u m = countPair t u m := by
        simp [countPair, List.filter_cons, ha']
      rw [this]
      exact ih h.2

lemma find?_replace {α : Type} (p : α → Bool) (b : α) (hb : p b = true) :
    ∀ l : List α, (l.find? p).isSome →
      (l.map (fun x => if p x then b else x)).find? p = some b := by
  intro l
  induction l with
  | nil => intro h; simp at h
  | cons a t ih =>
    intro h
    by_cases ha : p a = true
    · rw [List.map_cons, if_pos ha, List.find?_cons_of_pos _ hb]
    · have ha' : ¬ p a := by simp [ha]
      rw [List.find?_cons_of_neg _ ha'] at h
      rw [List.map_cons, if_neg ha', List.find?_cons_of_neg _ ha']
      exact ih h

lemma mem_le_foldrMax (l : List Nat) (a : Nat) : ∀ x ∈ l, x ≤ l.foldr max a := by
  induction l with
  | nil => intro x hx; simp at hx
  | cons b t ih =>
    intro x hx
    rcases List.mem_cons.mp hx with h | h
    · subst h; exact Nat.le_max_left _ _
    · exact Nat.le_trans (ih x h) (Nat.le_max_right _ _)

lemma updateRatingStatistics_ok (db : Db) (movieId : Nat) (mv : Movie)
    (h : findMovie db movieId = some mv) :
    ∃ db', MoviesService.updateRatingStatistics db movieId = .ok db' ∧
      db'.ratings = db.ratings ∧ db'.users = db.users := by
  rw [MoviesService.updateRatingStatistics, h]
  exact ⟨_, rfl, rfl, rfl⟩

/-! ### C3: TMDB fetch retry policy -/

lemma retryWithDelay_delays {α : Type} (attempts : Nat → Except String α)
    (delayOf : Nat → Nat) :
    ∀ (r i : Nat), ∃ n, n ≤ r ∧
      (TmdbService.retryWithDelay attempts delayOf i r).2 =
        (List.range n).map (fun j => delayOf (i + 1 + j)) := by
  intro r
  induction r with
  | zero => intro i; exact ⟨0, Nat.le_refl 0, by simp [TmdbService.retryWithDelay]⟩
  | succ r ih =>
    intro i
    cases h : attempts i with
    | ok a => exact ⟨0, Nat.zero_le _, by simp [TmdbService.retryWithDelay, h]⟩
    | error e =>
      obtain ⟨n, hn, he⟩ := ih (i + 1)
      refine ⟨n + 1, Nat.succ_le_succ hn, ?_⟩
      simp only [TmdbService.retryWithDelay, h]
      rw [he, List.range_succ_eq_map, List.map_cons, List.map_map]
      refine congrArg₂ List.cons (by simp) (List.map_congr_left (fun j _ => ?_))
      show delayOf (i + 1 + 1 + j) = delayOf (i + 1 + (j + 1))
      exact congrArg delayOf (by omega)

lemma retryWithDelay_allFail {α : Type} (attempts : Nat → Except String α)
    (delayOf : Nat → Nat) :
    ∀ (r i : Nat), (∀ j, j ≤ r → ∃ e, attempts (i + j) = .error e) →
      TmdbService.retryWithDelay attempts delayOf i r =
        (attempts (i + r), (List.range r).map (fun j => delayOf (i + 1 + j))) := by
  intro r
  induction r with
  | zero => intro i _; simp [TmdbService.retryWithDelay]
  | succ r ih =>
    intro i hfail
    obtain ⟨e, he⟩ := hfail 0 (Nat.zero_le _)
    rw [Nat.add_zero] at he
    have hrec := ih (i + 1) (fun j hj => by
      obtain ⟨e', he'⟩ := hfail (j + 1) (Nat.succ_le_succ hj)
      exact ⟨e', by rw [show i + 1 + j = i + (j + 1) by omega]; exact he'⟩)
    simp only [TmdbService.retryWithDelay, he, hrec]
    refine Prod.ext ?_ ?_
    · show attempts (i + 1 + r) = attempts (i + (r + 1))
      exact congrArg attempts (by omega)
    · show delayOf (i + 1) :: (List.range r).map (fun j => delayOf (i + 1 + 1 + j)) =
        (List.range (r + 1)).map (fun j => delayOf (i + 1 + j))
      rw [List.range_succ_eq_map, List.map_cons, List.map_map]
      refine congrArg₂ List.cons (by simp) (List.map_congr_left (fun j _ => ?_))
      show delayOf (i + 1 + 1 + j) = delayOf (i + 1 + (j + 1))
      exact congrArg delayOf (by omega)

/-- C3: every TMDB fetch retries a failed HTTP request at most 3 times, the
k-th retry waiting k × 1000 ms; a first-attempt success is returned with no
retry, and when the 3 retries are exhausted the last error is propagated to
the caller (after the delays 1000, 2000, 3000 ms). -/
theorem tmdb_fetchWithRetry_spec {α : Type} (attempts : Nat → Except String α) :
    (∃ n, n ≤ 3 ∧ (TmdbService.fetchWithRetry attempts).2 =
      (List.range n).map (fun j => 1000 * (j + 1))) ∧
    (∀ a, attempts 0 = .ok a → TmdbService.fetchWithRetry attempts = (.ok a, [])) ∧
    (∀ e0 e1 e2 e3, attempts 0 = .error e0 → attempts 1 = .error e1 →
      attempts 2 = .error e2 → attempts 3 = .error e3 →
      TmdbService.fetchWithRetry attempts = (.error e3, [1000, 2000, 3000])) := by
  refine ⟨?_, ?_, ?_⟩
  · obtain ⟨n, hn, he⟩ := retryWithDelay_delays attempts TmdbService.linearBackoff 3 0
    refine ⟨n, hn, ?_⟩
    rw [TmdbService.fetchWithRetry, TmdbService.rxRetry, he]
    exact List.map_congr_left (fun j _ => by
      show TmdbService.linearBackoff (0 + 1 + j) = 1000 * (j + 1)
      rw [TmdbService.linearBackoff]; omega)
  · intro a h
    simp [TmdbService.fetchWithRetry, TmdbService.rxRetry, TmdbService.retryWithDelay, h]
  · intro e0 e1 e2 e3 h0 h1 h2 h3
    have := retryWithDelay_allFail attempts TmdbService.linearBackoff 3 0 (fun j hj => by
      interval_cases j
      · exact ⟨e0, h0⟩
      · exact ⟨e1, h1⟩
      · exact ⟨e2, h2⟩
      · exact ⟨e3, h3⟩)
    rw [TmdbService.fetchWithRetry, TmdbService.rxRetry, this, h3]
    refine congrArg _ ?_
    simp [List.range_succ, TmdbService.linearBackoff]

/-- C3 witness: with every attempt failing, the pipeline waits 1000, 2000 and
3000 ms and propagates the final error. -/
theorem tmdb_fetchWithRetry_witness :
    TmdbService.fetchWithRetry (fun _ => (Except.error "boom" : Except String Nat)) =
      (Except.error "boom", [1000, 2000, 3000]) :=
  (tmdb_fetchWithRetry_spec (fun _ => (Except.error "boom" : Except String Nat))).2.2
    "boom" "boom" "boom" "boom" rfl rfl rfl rfl

/-! ### C2: per-movie rating statistics -/

lemma lookupKey_bumpKey (acc : List (ℤ × Nat)) (key k : ℤ) :
    (RatingsService.lookupKey (RatingsService.bumpKey acc key) k).getD 0
      = (RatingsService.lookupKey acc k).getD 0 + (if key = k then 1 else 0) := by
  by_cases hany : acc.any (fun kv => kv.1 == key) = true
  · rw [RatingsService.bumpKey, if_pos hany, RatingsService.lookupKey, List.find?_map]
    have hcomp : ((fun kv : ℤ × Nat => kv.1 == k) ∘
        (fun kv : ℤ × Nat => if kv.1 == key then (kv.1, kv.2 + 1) else kv)) =
          (fun kv : ℤ × Nat => kv.1 == k) := by
      funext kv
      by_cases hk : kv.1 = key <;> simp [hk]
    rw [hcomp]
    cases hf : acc.find? (fun kv => kv.1 == k) with
    | none =>
      have hkey : ¬ key = k := by
        intro hkk; subst hkk
        rw [List.any_eq_true] at hany
        obtain ⟨kv, hkv, hpkv⟩ := hany
        rw [List.find?_eq_none] at hf
        exact hf kv hkv hpkv
      simp [RatingsService.lookupKey, hf, hkey]
    | some kv =>
      have hkv1 : kv.1 = k := by have := List.find?_some hf; simpa using this
      by_cases hkk : key = k
      · subst hkk
        simp [RatingsService.lookupKey, hf, hkv1]
      · have hcond : ¬ kv.1 = key := by
          rw [hkv1]; exact fun h => hkk h.symm
        simp [RatingsService.lookupKey, hf, hcond, hkk]
  · have hany' : acc.any (fun kv => kv.1 == key) = false := by
      revert hany; cases acc.any (fun kv => kv.1 == key) <;> simp
    rw [RatingsService.bumpKey, if_neg (by rw [hany']; simp)]
    rw [RatingsService.lookupKey, List.find?_append]
    cases hf : acc.find? (fun kv => kv.1 == k) with
    | some kv =>
      have hkv1 : kv.1 = k := by have := List.find?_some hf; simpa using this
      have hkey : ¬ key = k := by
        intro hkk; subst hkk
        have hmem := List.mem_of_find?_eq_some hf
        have : acc.any (fun kv' => kv'.1 == key) = true :=
          List.any_eq_true.mpr ⟨kv, hmem, by simp [hkv1]⟩
        rw [hany'] at this
        exact Bool.false_ne_true this
      simp [RatingsService.lookupKey, hf, hkey, Option.or]
    | none =>
      by_cases hkk : key = k
      · subst hkk
        simp [RatingsService.lookupKey, hf, Option.or]
      · have hcond : (key == k) = false := beq_eq_false_iff_ne.mpr hkk
        simp [RatingsService.lookupKey, hf, hkk, hcond, Option.or]

lemma lookupKey_foldDistribution (l : List Rating) :
    ∀ (acc : List (ℤ × Nat)) (k : ℤ),
      (RatingsService.lookupKey
          (l.foldl (fun a r => RatingsService.bumpKey a ⌊r.rating⌋) acc) k).getD 0
        = (RatingsService.lookupKey acc k).getD 0
          + (l.filter (fun r => ⌊r.rating⌋ == k)).length := by
  induction l with
  | nil => intro acc k; simp
  | cons r t ih =>
    intro acc k
    rw [List.foldl_cons, ih, lookupKey_bumpKey, List.filter_cons]
    by_cases hfl : ⌊r.rating⌋ = k
    · rw [if_pos hfl, if_pos (show (⌊r.rating⌋ == k) = true from beq_iff_eq.mpr hfl),
        List.length_cons]
      omega
    · rw [if_neg hfl, if_neg (show ¬ (⌊r.rating⌋ == k) = true by simp [hfl])]
      omega

/-- C2: `getMovieRatingStats$` returns the rating count, the arithmetic mean
of the movie's rating values rounded to one decimal place
(`Math.round(avg * 10) / 10`), and a histogram whose entry at each integer
`k` counts exactly the ratings with floor `k`; a movie with no ratings gets
average 0, count 0 and an empty distribution. -/
theorem ratings_getMovieRatingStats_spec (db : Db) (movieId : Nat) :
    (RatingsService.getMovieRatingStats db movieId).count
        = (RatingsService.findByMovie db movieId).length ∧
    (RatingsService.getMovieRatingStats db movieId).average
      = (if (RatingsService.findByMovie db movieId).isEmpty then 0 else
          (jsRound ((((RatingsService.findByMovie db movieId).map (fun r => r.rating)).sum
              / ((RatingsService.findByMovie db movieId).length : ℚ)) * 10) : ℚ) / 10) ∧
    (∀ k : ℤ,
      (RatingsService.lookupKey
          (RatingsService.getMovieRatingStats db movieId).distribution k).getD 0
        = ((RatingsService.findByMovie db movieId).filter
            (fun r => ⌊r.rating⌋ == k)).length) ∧
    ((RatingsService.findByMovie db movieId).isEmpty = true →
      RatingsService.getMovieRatingStats db movieId
        = { average := 0, count := 0, distribution := [] }) := by
  by_cases hemp : (RatingsService.findByMovie db movieId).isEmpty = true
  · have hnil : RatingsService.findByMovie db movieId = [] :=
      List.isEmpty_iff.mp hemp
    refine ⟨?_, ?_, ?_, ?_⟩
    · simp [RatingsService.getMovieRatingStats, hnil]
    · simp [RatingsService.getMovieRatingStats, hnil]
    · intro k
      simp [RatingsService.getMovieRatingStats, hnil, RatingsService.lookupKey]
    · intro _
      simp [RatingsService.getMovieRatingStats, hnil]
  · have hemp' : (RatingsService.findByMovie db movieId).isEmpty = false := by
      revert hemp; cases (RatingsService.findByMovie db movieId).isEmpty <;> simp
    refine ⟨?_, ?_, ?_, ?_⟩
    · simp [RatingsService.getMovieRatingStats, hemp']
    · simp [RatingsService.getMovieRatingStats, hemp']
    · intro k
      have := lookupKey_foldDistribution (RatingsService.findByMovie db movieId) [] k
      simp only [RatingsService.lookupKey, List.find?_nil, Option.map_none,
        Option.getD_none, Nat.zero_add] at this
      simp [RatingsService.getMovieRatingStats, hemp', RatingsService.lookupKey] at this ⊢
      exact this
    · intro hcontra
      rw [hemp'] at hcontra
      exact absurd hcontra Bool.false_ne_true

/-- C2 witness: stats of a concrete movie with ratings 8.5 and 8: average
`Math.round(82.5)/10 = 8.3`, count 2, histogram entry 2 at key 8. -/
theorem ratings_getMovieRatingStats_witness :
    (RatingsService.lookupKey
        (RatingsService.getMovieRatingStats
          { movies := [], users := [],
            ratings := [{ id := 1, userId := 1, movieId := 1, rating := (17 : ℚ)/2, review := none },
                        { id := 2, userId := 2, movieId := 1, rating := 8, review := none }] }
          1).distribution 8).getD 0
      = ((RatingsService.findByMovie
            { movies := [], users := [],
              ratings := [{ id := 1, userId := 1, movieId := 1, rating := (17 : ℚ)/2, review := none },
                          { id := 2, userId := 2, movieId := 1, rating := 8, review := none }] }
            1).filter (fun r => ⌊r.rating⌋ == 8)).length :=
  (ratings_getMovieRatingStats_spec
    { movies := [], users := [],
      ratings := [{ id := 1, userId := 1, movieId := 1, rating := (17 : ℚ)/2, review := none },
                  { id := 2, userId := 2, movieId := 1, rating := 8, review := none }] }
    1).2.2.1 8

/-! ### C1: create-or-update keyed by the (user, movie) pair -/

lemma map_pairOf_replace (l : List Rating) (ex saved : Rating)
    (hids : IdsUnique l) (hmem : ex ∈ l)
    (hpair : pairOf saved = pairOf ex) :
    (l.map (fun s => if s.id == ex.id then saved else s)).map pairOf = l.map pairOf := by
  rw [List.map_map]
  refine List.map_congr_left (fun s hs => ?_)
  show pairOf (if s.id == ex.id then saved else s) = pairOf s
  by_cases h : s.id = ex.id
  · have hse : s = ex := List.inj_on_of_nodup_map hids hs hmem h
    rw [if_pos (by simp [h]), hse, hpair]
  · rw [if_neg (by simp [h])]

/-- C1: `createOrUpdate$` is create-or-update keyed by `(user, movie)`:
a missing movie or user yields a `NotFoundException` before anything is
saved; otherwise, when a rating by that user for that movie exists its value
is overwritten and the same row (same id) is saved — the table keeps its
size — and when none exists one new row for the pair is appended; under the
table's `@Unique(['user','movie'])` and primary-key invariants the result
again has at most one rating per `(user, movie)` pair. -/
theorem ratings_createOrUpdate_spec (db : Db) (u m : Nat)
    (dto : RatingsService.CreateRatingDto) (freshId : Nat)
    (hids : IdsUnique db.ratings) (hpair : PairUnique db.ratings) :
    (findMovie db m = none →
      RatingsService.createOrUpdate db u m dto freshId =
        .error (.notFound (movieNotFoundMsg m))) ∧
    (∀ mv, findMovie db m = some mv → findUser db u = none →
      RatingsService.createOrUpdate db u m dto freshId =
        .error (.notFound (userNotFoundMsg u))) ∧
    (∀ mv usr, findMovie db m = some mv → findUser db u = some usr →
      ∃ db1 saved, RatingsService.createOrUpdate db u m dto freshId = .ok (db1, saved) ∧
        saved.userId = u ∧ saved.movieId = m ∧ saved.rating = dto.rating ∧
        (∀ ex, findRating db u m = some ex → saved.id = ex.id ∧
          db1.ratings = db.ratings.map (fun s => if s.id == ex.id then saved else s) ∧
          db1.ratings.length = db.ratings.length) ∧
        (findRating db u m = none → db1.ratings = db.ratings ++ [saved]) ∧
        PairUnique db1.ratings ∧
        (∀ u' m', countPair db1.ratings u' m' ≤ 1)) := by
  refine ⟨?_, ?_, ?_⟩
  · intro h
    simp [RatingsService.createOrUpdate, h]
  · intro mv hm hu
    simp [RatingsService.createOrUpdate, hm, hu]
  · intro mv usr hm hu
    cases he : findRating db u m with
    | some ex =>
      have hexum : ex.userId = u ∧ ex.movieId = m := by
        have := List.find?_some he
        simpa using this
      have hmem : ex ∈ db.ratings := List.mem_of_find?_eq_some he
      have hany : db.ratings.any (fun s => s.id == ({ ex with rating := dto.rating, review := jsOrStr dto.review ex.review } : Rating).id) = true :=
        List.any_eq_true.mpr ⟨ex, hmem, by simp⟩
      have hsave : saveRatingRow db.ratings { ex with rating := dto.rating, review := jsOrStr dto.review ex.review } = db.ratings.map (fun s => if s.id == ex.id then { ex with rating := dto.rating, review := jsOrStr dto.review ex.review } else s) := by
        rw [saveRatingRow, if_pos hany]
      have hmv1 : findMovie { db with ratings := saveRatingRow db.ratings { ex with rating := dto.rating, review := jsOrStr dto.review ex.review } } m = some mv := hm
      obtain ⟨db2, hok, hrat, _⟩ := updateRatingStatistics_ok _ _ _ hmv1
      have hp2 : PairUnique db2.ratings := by
        rw [PairUnique, hrat]
        show ((saveRatingRow db.ratings { ex with rating := dto.rating, review := jsOrStr dto.review ex.review }).map pairOf).Nodup
        rw [hsave, map_pairOf_replace db.ratings ex { ex with rating := dto.rating, review := jsOrStr dto.review ex.review } hids hmem rfl]
        exact hpair
      refine ⟨db2, { ex with rating := dto.rating, review := jsOrStr dto.review ex.review }, ?_, hexum.1, hexum.2, rfl, ?_, ?_, hp2,
        fun u' m' => countPair_le_one_of_pairUnique hp2 u' m'⟩
      · simp only [RatingsService.createOrUpdate, hm, hu, he, hok, Except.map]
      · intro ex' he'
        have hex' : ex = ex' := Option.some.inj he'
        subst hex'
        refine ⟨rfl, ?_, ?_⟩
        · rw [hrat]
          exact hsave
        · rw [hrat]
          show (saveRatingRow db.ratings { ex with rating := dto.rating, review := jsOrStr dto.review ex.review }).length = db.ratings.length
          rw [hsave, List.length_map]
      · intro hnone
        exact absurd hnone (by simp)
    | none =>
      have hnotpair : ∀ r ∈ db.ratings, ¬ (r.userId == u && r.movieId == m) = true := by
        rw [← List.find?_eq_none]
        exact he
      have hmv1 : findMovie { db with ratings := db.ratings ++ [{ id := freshId, userId := u, movieId := m, rating := dto.rating, review := dto.review }] } m = some mv := hm
      obtain ⟨db2, hok, hrat, _⟩ := updateRatingStatistics_ok _ _ _ hmv1
      have hp2 : PairUnique db2.ratings := by
        rw [PairUnique, hrat]
        show ((db.ratings ++ [({ id := freshId, userId := u, movieId := m, rating := dto.rating, review := dto.review } : Rating)]).map pairOf).Nodup
        rw [List.map_append]
        rw [List.nodup_append]
        refine ⟨hpair, by simp, ?_⟩
        intro a ha hb
        simp only [List.map_cons, List.map_nil, List.mem_singleton] at hb
        obtain ⟨r, hr, hra⟩ := List.mem_map.mp ha
        have : pairOf r = (u, m) := by rw [hra, hb]; rfl
        refine hnotpair r hr ?_
        have h1 : r.userId = u := congrArg Prod.fst this
        have h2 : r.movieId = m := congrArg Prod.snd this
        simp [h1, h2]
      refine ⟨db2, { id := freshId, userId := u, movieId := m, rating := dto.rating, review := dto.review }, ?_, rfl, rfl, rfl, ?_, ?_, hp2,
        fun u' m' => countPair_le_one_of_pairUnique hp2 u' m'⟩
      · simp only [RatingsService.createOrUpdate, hm, hu, he, hok, Except.map]
      · intro ex' he'
        exact absurd he' (by simp)
      · intro _
        rw [hrat]

/-- C1 witness: rating a movie id that is not stored fails with the
not-found error (at the pairwise-unique, key-unique store). -/
theorem ratings_createOrUpdate_witness :
    RatingsService.createOrUpdate
      { movies := [], users := [], ratings := [] }
      1 99 { rating := 8, review := none } 5 =
      .error (.notFound (movieNotFoundMsg 99)) :=
  (ratings_createOrUpdate_spec { movies := [], users := [], ratings := [] }
    1 99 { rating := 8, review := none } 5 (by simp [IdsUnique])
    (by simp [PairUnique])).1 rfl

/-! ### C5: ownership checks on rating update and delete -/

/-- C5: `update$` and `remove$` reject a caller that does not own the stored
rating with the errors 'You can only update your own ratings' /
'You can only delete your own ratings' (leaving the store untouched, as the
save/delete is never reached); when the caller owns it, `update$` saves the
row with the dto's fields applied and `remove$` deletes the row. -/
theorem ratings_ownership_spec (db : Db) (id uid : Nat)
    (dto : RatingsService.UpdateRatingDto) :
    (∀ ex, findRatingById db id = some ex → ¬ ex.userId = uid →
      RatingsService.update db id uid dto =
          .error (.plainError "You can only update your own ratings") ∧
      RatingsService.remove db id uid =
          .error (.plainError "You can only delete your own ratings")) ∧
    (∀ ex, findRatingById db id = some ex → ex.userId = uid →
      movieExists db ex.movieId = true →
      (∃ db' saved, RatingsService.update db id uid dto = .ok (db', saved) ∧
        saved.id = ex.id ∧
        saved.rating = dto.rating.getD ex.rating ∧
        saved.review = dto.review.or ex.review ∧
        db'.ratings = db.ratings.map (fun s => if s.id == ex.id then saved else s)) ∧
      (∃ db2, RatingsService.remove db id uid = .ok db2 ∧
        db2.ratings = db.ratings.filter (fun s => !(s.id == ex.id)) ∧
        findRatingById db2 id = none)) := by
  constructor
  · intro ex hex hne
    have hb : (ex.userId != uid) = true := bne_iff_ne.mpr hne
    constructor
    · simp [RatingsService.update, hex, hb]
    · simp [RatingsService.remove, hex, hb]
  · intro ex hex heq hmv
    have hb : (ex.userId != uid) = false := by simp [bne, heq]
    have hmem : ex ∈ db.ratings := List.mem_of_find?_eq_some hex
    have hexid : ex.id = id := by have := List.find?_some hex; simpa using this
    have hfindmv : ∃ mv, findMovie db ex.movieId = some mv := by
      rw [movieExists, List.any_eq_true] at hmv
      obtain ⟨mv, hmvmem, hmvid⟩ := hmv
      have : (db.movies.find? (fun m => m.id == ex.movieId)).isSome :=
        List.find?_isSome.mpr ⟨mv, hmvmem, hmvid⟩
      exact Option.isSome_iff_exists.mp this
    obtain ⟨mv, hmvfind⟩ := hfindmv
    constructor
    · -- update path
      have hany : db.ratings.any (fun s => s.id ==
          ({ ex with rating := dto.rating.getD ex.rating, review := dto.review.or ex.review } : Rating).id) = true :=
        List.any_eq_true.mpr ⟨ex, hmem, by simp⟩
      have hmv1 : findMovie { db with ratings := saveRatingRow db.ratings { ex with rating := dto.rating.getD ex.rating, review := dto.review.or ex.review } } ex.movieId = some mv := hmvfind
      obtain ⟨db2, hok, hrat, husers⟩ := updateRatingStatistics_ok _ _ _ hmv1
      refine ⟨db2, { ex with rating := dto.rating.getD ex.rating, review := dto.review.or ex.review }, ?_, rfl, rfl, rfl, ?_⟩
      · simp only [RatingsService.update, hex, hb, Bool.false_eq_true, if_false,
          hok, Except.map]
      · rw [hrat, saveRatingRow, if_pos hany]
    · -- remove path
      have hmv1 : findMovie { db with ratings := db.ratings.filter (fun s => !(s.id == ex.id)) } ex.movieId = some mv := hmvfind
      obtain ⟨db2, hok, hrat, husers⟩ := updateRatingStatistics_ok _ _ _ hmv1
      refine ⟨db2, ?_, hrat, ?_⟩
      · simp only [RatingsService.remove, hex, hb, Bool.false_eq_true, if_false, hok]
      · rw [findRatingById, List.find?_eq_none]
        intro s hs hsid
        rw [hrat] at hs
        have hsmem := List.mem_filter.mp hs
        have hne : (s.id == ex.id) = false := by
          have := hsmem.2
          revert this
          cases s.id == ex.id <;> simp
        have : s.id = id := by simpa using hsid
        rw [this, hexid] at hne
        simp at hne

/-- C5 witness: user 2 may not update or delete user 1's rating. -/
theorem ratings_ownership_witness :
    RatingsService.update
        { movies := [], users := [],
          ratings := [{ id := 7, userId := 1, movieId := 3, rating := 6, review := none }] }
        7 2 { rating := some 5, review := none } =
      .error (.plainError "You can only update your own ratings") ∧
    RatingsService.remove
        { movies := [], users := [],
          ratings := [{ id := 7, userId := 1, movieId := 3, rating := 6, review := none }] }
        7 2 =
      .error (.plainError "You can only delete your own ratings") :=
  (ratings_ownership_spec
    { movies := [], users := [],
      ratings := [{ id := 7, userId := 1, movieId := 3, rating := 6, review := none }] }
    7 2 { rating := some 5, review := none }).1
    { id := 7, userId := 1, movieId := 3, rating := 6, review := none }
    rfl (by decide)

/-! ### C4: registration uniqueness checks -/

/-- C4: `UsersService.create$` rejects a registration whose username is
already stored with `ConflictException('Username already exists')`, rejects
one whose email is already stored with
`ConflictException('Email already exists')` (username checked first), and
only when neither exists appends one new user row carrying the requested
username and email; an error leaves the store unchanged. -/
theorem users_create_unique_spec (db : Db) (dto : UsersService.CreateUserDto)
    (hash : String → String) (freshId : Nat) :
    ((db.users.find? (fun x => x.username == dto.username)).isSome = true →
      UsersService.create db dto hash freshId =
        .error (.conflict "Username already exists")) ∧
    ((db.users.find? (fun x => x.username == dto.username)).isSome = false →
     (db.users.find? (fun x => x.email == dto.email)).isSome = true →
      UsersService.create db dto hash freshId =
        .error (.conflict "Email already exists")) ∧
    ((db.users.find? (fun x => x.username == dto.username)).isSome = false →
     (db.users.find? (fun x => x.email == dto.email)).isSome = false →
      ∃ u, UsersService.create db dto hash freshId =
          .ok ({ db with users := db.users ++ [u] }, u) ∧
        u.username = dto.username ∧ u.email = dto.email) := by
  refine ⟨fun h1 => ?_, fun h1 h2 => ?_, fun h1 h2 => ?_⟩
  · simp [UsersService.create, h1]
  · simp [UsersService.create, h1, h2]
  · simp only [UsersService.create, h1, h2, Bool.false_eq_true, if_false]
    exact ⟨_, rfl, rfl, rfl⟩

/-- C4 witness: registering a taken username is rejected with the conflict
error. -/
theorem users_create_unique_witness :
    UsersService.create
      { movies := [], ratings := [],
        users := [{ id := 1, username := "alice", email := "a@x.com",
                    password := "h", firstName := none, lastName := none,
                    isActive := true, watchlist := [], favorites := [] }] }
      { username := "alice", email := "new@x.com", password := "pw12345!A",
        firstName := none, lastName := none }
      (fun p => p) 2 = .error (.conflict "Username already exists") :=
  (users_create_unique_spec
    { movies := [], ratings := [],
      users := [{ id := 1, username := "alice", email := "a@x.com",
                  password := "h", firstName := none, lastName := none,
                  isActive := true, watchlist := [], favorites := [] }] }
    { username := "alice", email := "new@x.com", password := "pw12345!A",
      firstName := none, lastName := none }
    (fun p => p) 2).1 (by decide)

/-! ### C6: offset/limit pagination -/

/-- C6: `search$` paginates as an offset/limit query: the data page is
element-for-element the slice of the ordered matching list starting at
`(page − 1) × limit` (so exactly that many records are skipped), contains at
most `limit` records (`min limit (total − skipped)`), and the response meta
reports the total match count and `totalPages = ceil(total / limit)`
(characterised by the two inequalities below). -/
theorem movies_search_pagination_spec (db : Db) (query : String)
    (page limit : Nat) (hl : 1 ≤ limit) :
    (MoviesService.search db query page limit).data.length
        = min limit
            ((MoviesService.searchMatching db query).length - (page - 1) * limit) ∧
    (∀ i : Nat, (MoviesService.search db query page limit).data[i]? =
      if i < limit then
        (MoviesService.searchMatching db query)[(page - 1) * limit + i]?
      else none) ∧
    (MoviesService.search db query page limit).meta.totalItems
        = (MoviesService.searchMatching db query).length ∧
    (MoviesService.searchMatching db query).length ≤
        (MoviesService.search db query page limit).meta.totalPages * limit ∧
    (MoviesService.search db query page limit).meta.totalPages * limit <
        (MoviesService.searchMatching db query).length + limit := by
  have hdm := Nat.div_add_mod ((MoviesService.searchMatching db query).length + limit - 1) limit
  have hr : ((MoviesService.searchMatching db query).length + limit - 1) % limit < limit :=
    Nat.mod_lt _ (by omega)
  refine ⟨?_, ?_, rfl, ?_, ?_⟩
  · simp [MoviesService.search, MoviesService.paginatedResponse,
      List.length_take, List.length_drop]
  · intro i
    by_cases hi : i < limit
    · rw [if_pos hi]
      show (((MoviesService.searchMatching db query).drop ((page - 1) * limit)).take limit)[i]? = _
      rw [List.getElem?_take_of_lt hi, List.getElem?_drop]
    · rw [if_neg hi]
      show (((MoviesService.searchMatching db query).drop ((page - 1) * limit)).take limit)[i]? = none
      refine List.getElem?_eq_none ?_
      have := List.length_take_le limit
        ((MoviesService.searchMatching db query).drop ((page - 1) * limit))
      omega
  · show (MoviesService.searchMatching db query).length ≤
      ((MoviesService.searchMatching db query).length + limit - 1) / limit * limit
    rw [Nat.mul_comm]
    omega
  · show ((MoviesService.searchMatching db query).length + limit - 1) / limit * limit <
      (MoviesService.searchMatching db query).length + limit
    rw [Nat.mul_comm]
    omega

/-- C6 witness: a concrete one-movie store paged with page 1, limit 10. -/
theorem movies_search_pagination_witness :
    (MoviesService.search { movies := [], users := [], ratings := [] } "a" 1 10).meta.totalItems
      = (MoviesService.searchMatching { movies := [], users := [], ratings := [] } "a").length :=
  (movies_search_pagination_spec { movies := [], users := [], ratings := [] }
    "a" 1 10 (by decide)).2.2.1

/-! ### C7: sequential sync loop with fixed delay -/

lemma syncLoop_props (failsAt : Nat → Bool) :
    ∀ (queue : List TmdbSyncService.TmdbMovie) (rows : List Movie) (idx : Nat),
      (TmdbSyncService.syncLoop failsAt rows idx queue).2.1.length = queue.length ∧
      TmdbSyncService.saveIds (TmdbSyncService.syncLoop failsAt rows idx queue).2.2
        = queue.map (fun tm => tm.id) ∧
      TmdbSyncService.delaysFollowSaves
        (TmdbSyncService.syncLoop failsAt rows idx queue).2.2 = true := by
  intro queue
  induction queue with
  | nil =>
    intro rows idx
    refine ⟨rfl, rfl, rfl⟩
  | cons tm rest ih =>
    intro rows idx
    by_cases hf : failsAt idx = true
    · obtain ⟨h1, h2, h3⟩ := ih rows (idx + 1)
      refine ⟨?_, ?_, ?_⟩ <;>
        simp [TmdbSyncService.syncLoop, hf, TmdbSyncService.saveIds,
          TmdbSyncService.delaysFollowSaves, h1, h2, h3]
    · have hf' : failsAt idx = false := by
        revert hf; cases failsAt idx <;> simp
      obtain ⟨h1, h2, h3⟩ := ih (TmdbSyncService.saveMovie rows tm) (idx + 1)
      refine ⟨?_, ?_, ?_⟩ <;>
        simp [TmdbSyncService.syncLoop, hf', TmdbSyncService.saveIds,
          TmdbSyncService.delaysFollowSaves, h1, h2, h3]

/-- C7: both sync jobs process the (for the initial sync: deduplicated)
movie list strictly sequentially: one result per input movie even when some
saves fail (a caught failure never aborts the remainder), the save attempts
appear in exact input order on the timeline, and every successful save is
immediately followed by the fixed 100 ms rate-limiting delay. -/
theorem tmdbSync_sequential_spec (failsAt : Nat → Bool) (rows : List Movie)
    (movies : List TmdbSyncService.TmdbMovie) :
    ((TmdbSyncService.syncPopularMovies failsAt rows movies).2.1.length = movies.length ∧
     TmdbSyncService.saveIds (TmdbSyncService.syncPopularMovies failsAt rows movies).2.2
        = movies.map (fun tm => tm.id) ∧
     TmdbSyncService.delaysFollowSaves
        (TmdbSyncService.syncPopularMovies failsAt rows movies).2.2 = true) ∧
    ((TmdbSyncService.syncInitialMovies failsAt rows movies).2.1.length
        = (TmdbSyncService.dedupByTmdbId movies).length ∧
     TmdbSyncService.saveIds (TmdbSyncService.syncInitialMovies failsAt rows movies).2.2
        = (TmdbSyncService.dedupByTmdbId movies).map (fun tm => tm.id) ∧
     TmdbSyncService.delaysFollowSaves
        (TmdbSyncService.syncInitialMovies failsAt rows movies).2.2 = true) :=
  ⟨syncLoop_props failsAt movies rows 0,
   syncLoop_props failsAt (TmdbSyncService.dedupByTmdbId movies) rows 0⟩

/-! ### C9: sync writes never touch user-rating aggregates -/

lemma statsPreserved_refl (rows : List Movie) : StatsPreserved rows rows :=
  fun mv hmv => ⟨mv, hmv, rfl, rfl, rfl⟩

lemma statsPreserved_trans {a b c : List Movie}
    (hab : StatsPreserved a b) (hbc : StatsPreserved b c) : StatsPreserved a c := by
  intro mv hmv
  obtain ⟨mv1, h1, hid1, hav1, hcnt1⟩ := hab mv hmv
  obtain ⟨mv2, h2, hid2, hav2, hcnt2⟩ := hbc mv1 h1
  exact ⟨mv2, h2, by rw [hid2, hid1], by rw [hav2, hav1], by rw [hcnt2, hcnt1]⟩

lemma statsPreserved_of_view (old new : List Movie)
    (rest : List (Nat × Option ℚ × Nat))
    (hview : ratingStatsView new = ratingStatsView old ++ rest) :
    StatsPreserved old new := by
  intro mv hmv
  have hmem : (mv.id, mv.userRatingAverage, mv.userRatingCount) ∈ ratingStatsView new := by
    rw [hview]
    exact List.mem_append_left _
      (List.mem_map_of_mem (fun m => (m.id, m.userRatingAverage, m.userRatingCount)) hmv)
  obtain ⟨mv', hmv', heq⟩ := List.mem_map.mp hmem
  simp only [Prod.mk.injEq] at heq
  exact ⟨mv', hmv', heq.1, heq.2.1, heq.2.2⟩

lemma saveMovie_stats_view (rows : List Movie) (tm : TmdbSyncService.TmdbMovie)
    (hids : (rows.map (fun mv => mv.id)).Nodup) :
    ratingStatsView (TmdbSyncService.saveMovie rows tm)
      = ratingStatsView rows ++
        (if rows.any (fun mv => mv.tmdbId == tm.id) then []
         else [(TmdbSyncService.nextMovieId rows, none, 0)]) := by
  cases hfind : rows.find? (fun mv => mv.tmdbId == tm.id) with
  | some existingMovie =>
    have hp := List.find?_some hfind
    have hany : rows.any (fun mv => mv.tmdbId == tm.id) = true :=
      List.any_eq_true.mpr ⟨existingMovie, List.mem_of_find?_eq_some hfind, hp⟩
    have hmem : existingMovie ∈ rows := List.mem_of_find?_eq_some hfind
    rw [hany, if_pos rfl, List.append_nil, TmdbSyncService.saveMovie, hfind,
      ratingStatsView, List.map_map]
    refine List.map_congr_left (fun mv hmv => ?_)
    show (fun m : Movie => (m.id, m.userRatingAverage, m.userRatingCount))
        (if mv.id == existingMovie.id then TmdbSyncService.mergeMovie existingMovie tm else mv)
      = (mv.id, mv.userRatingAverage, mv.userRatingCount)
    by_cases h : mv.id = existingMovie.id
    · have hse : mv = existingMovie := List.inj_on_of_nodup_map hids hmv hmem h
      rw [if_pos (by simp [h]), hse]
      rfl
    · rw [if_neg (by simp [h])]
  | none =>
    have hany : rows.any (fun mv => mv.tmdbId == tm.id) = false := by
      rw [List.any_eq_false]
      rw [List.find?_eq_none] at hfind
      exact hfind
    rw [hany, if_neg (by simp), TmdbSyncService.saveMovie, hfind,
      ratingStatsView, List.map_append]
    rfl

lemma saveMovie_ids_nodup (rows : List Movie) (tm : TmdbSyncService.TmdbMovie)
    (hids : (rows.map (fun mv => mv.id)).Nodup) :
    ((TmdbSyncService.saveMovie rows tm).map (fun mv => mv.id)).Nodup := by
  cases hfind : rows.find? (fun mv => mv.tmdbId == tm.id) with
  | some existingMovie =>
    have hmem : existingMovie ∈ rows := List.mem_of_find?_eq_some hfind
    rw [TmdbSyncService.saveMovie, hfind, List.map_map]
    have : ((fun mv : Movie => mv.id) ∘
        (fun mv => if mv.id == existingMovie.id then TmdbSyncService.mergeMovie existingMovie tm else mv))
        = (fun mv : Movie => mv.id)
      → ((rows.map ((fun mv : Movie => mv.id) ∘ (fun mv => if mv.id == existingMovie.id then TmdbSyncService.mergeMovie existingMovie tm else mv)))).Nodup := by
      intro hfn
      rw [hfn]
      exact hids
    refine this ?_
    funext mv
    show (if mv.id == existingMovie.id then TmdbSyncService.mergeMovie existingMovie tm else mv).id = mv.id
    by_cases h : mv.id = existingMovie.id
    · rw [if_pos (by simp [h])]
      show existingMovie.id = mv.id
      exact h.symm
    · rw [if_neg (by simp [h])]
  | none =>
    rw [TmdbSyncService.saveMovie, hfind, List.map_append, List.nodup_append]
    refine ⟨hids, by simp, ?_⟩
    intro a ha hb
    simp only [List.map_cons, List.map_nil, List.mem_singleton] at hb
    obtain ⟨mv, hmv, hamv⟩ := List.mem_map.mp ha
    have hle : mv.id ≤ (rows.map (fun m => m.id)).foldr max 0 :=
      mem_le_foldrMax _ 0 mv.id (List.mem_map_of_mem _ hmv)
    rw [← hamv] at hb
    show False
    rw [TmdbSyncService.newMovieFrom] at hb
    simp only [TmdbSyncService.nextMovieId] at hb
    omega

lemma syncLoop_statsPreserved (failsAt : Nat → Bool) :
    ∀ (queue : List TmdbSyncService.TmdbMovie) (rows : List Movie) (idx : Nat),
      (rows.map (fun mv => mv.id)).Nodup →
      StatsPreserved rows (TmdbSyncService.syncLoop failsAt rows idx queue).1 := by
  intro queue
  induction queue with
  | nil => intro rows idx _; exact statsPreserved_refl rows
  | cons tm rest ih =>
    intro rows idx hids
    by_cases hf : failsAt idx = true
    · have : (TmdbSyncService.syncLoop failsAt rows idx (tm :: rest)).1
          = (TmdbSyncService.syncLoop failsAt rows (idx + 1) rest).1 := by
        rw [TmdbSyncService.syncLoop, if_pos hf]
      rw [this]
      exact ih rows (idx + 1) hids
    · have hf' : ¬ failsAt idx = true := hf
      have hstep : (TmdbSyncService.syncLoop failsAt rows idx (tm :: rest)).1
          = (TmdbSyncService.syncLoop failsAt (TmdbSyncService.saveMovie rows tm) (idx + 1) rest).1 := by
        rw [TmdbSyncService.syncLoop, if_neg hf']
      rw [hstep]
      refine statsPreserved_trans ?_ (ih (TmdbSyncService.saveMovie rows tm) (idx + 1)
        (saveMovie_ids_nodup rows tm hids))
      exact statsPreserved_of_view rows (TmdbSyncService.saveMovie rows tm) _
        (saveMovie_stats_view rows tm hids)

/-- C9: `saveMovie` never alters a stored movie's user-rating aggregates:
its id/aggregate view of the table is exactly the old view, plus one fresh
row with default aggregates (`null` average, count 0) when the `tmdbId` was
not stored; for a matched row every external-metadata field is overwritten
from the TMDB payload while `userRatingAverage`/`userRatingCount` are copied
from the stored row; consequently any run of the sync loop preserves every
stored movie's user-rating statistics. -/
theorem tmdbSync_saveMovie_frame (rows : List Movie)
    (tm : TmdbSyncService.TmdbMovie)
    (hids : (rows.map (fun mv => mv.id)).Nodup) :
    ratingStatsView (TmdbSyncService.saveMovie rows tm)
      = ratingStatsView rows ++
        (if rows.any (fun mv => mv.tmdbId == tm.id) then []
         else [(TmdbSyncService.nextMovieId rows, none, 0)]) ∧
    (∀ existingMovie, rows.find? (fun mv => mv.tmdbId == tm.id) = some existingMovie →
      (TmdbSyncService.mergeMovie existingMovie tm).userRatingAverage
          = existingMovie.userRatingAverage ∧
      (TmdbSyncService.mergeMovie existingMovie tm).userRatingCount
          = existingMovie.userRatingCount ∧
      (TmdbSyncService.mergeMovie existingMovie tm).tmdbId = tm.id ∧
      (TmdbSyncService.mergeMovie existingMovie tm).title = tm.title ∧
      (TmdbSyncService.mergeMovie existingMovie tm).overview = some tm.overview ∧
      (TmdbSyncService.mergeMovie existingMovie tm).posterPath = tm.poster_path ∧
      (TmdbSyncService.mergeMovie existingMovie tm).backdropPath = tm.backdrop_path ∧
      (TmdbSyncService.mergeMovie existingMovie tm).voteAverage = tm.vote_average ∧
      (TmdbSyncService.mergeMovie existingMovie tm).voteCount = tm.vote_count ∧
      (TmdbSyncService.mergeMovie existingMovie tm).popularity = tm.popularity ∧
      (TmdbSyncService.mergeMovie existingMovie tm).adult = tm.adult ∧
      (TmdbSyncService.mergeMovie existingMovie tm).video = tm.video ∧
      TmdbSyncService.saveMovie rows tm
        = rows.map (fun mv => if mv.id == existingMovie.id
            then TmdbSyncService.mergeMovie existingMovie tm else mv)) ∧
    (∀ failsAt idx queue,
      StatsPreserved rows (TmdbSyncService.syncLoop failsAt rows idx queue).1) := by
  refine ⟨saveMovie_stats_view rows tm hids, ?_, ?_⟩
  · intro existingMovie hfind
    refine ⟨rfl, rfl, rfl, rfl, rfl, rfl, rfl, rfl, rfl, rfl, rfl, rfl, ?_⟩
    rw [TmdbSyncService.saveMovie, hfind]
  · intro failsAt idx queue
    exact syncLoop_statsPreserved failsAt queue rows idx hids

/-- Concrete stored movie row used by the C9 witness. -/
def sampleMovieRow : Movie :=
  { id := 1, tmdbId := 100, title := "Alpha", overview := none,
    posterPath := none, backdropPath := none, releaseDate := none,
    voteAverage := 7, voteCount := 10, popularity := 5, genreIds := [],
    genres := none, originalLanguage := none, originalTitle := none,
    adult := false, video := false, userRatingAverage := some 8,
    userRatingCount := 3 }

/-- Concrete TMDB payload used by the C9 witness (same `tmdbId` as
`sampleMovieRow`, new metadata). -/
def sampleTmdbPayload : TmdbSyncService.TmdbMovie :=
  { id := 100, title := "Alpha Remastered", overview := "o",
    poster_path := none, backdrop_path := none, release_date := none,
    vote_average := 9, vote_count := 20, popularity := 6,
    genre_ids := none, original_language := "en",
    original_title := "Alpha", adult := false, video := false,
    genres := none }

/-- C9 witness: saving a TMDB payload over a one-movie store with nodup ids
keeps the id/aggregate view (plus a fresh default row when unmatched). -/
theorem tmdbSync_saveMovie_frame_witness :
    ratingStatsView (TmdbSyncService.saveMovie [sampleMovieRow] sampleTmdbPayload)
      = ratingStatsView [sampleMovieRow] ++
        (if [sampleMovieRow].any (fun mv => mv.tmdbId == sampleTmdbPayload.id) then []
         else [(TmdbSyncService.nextMovieId [sampleMovieRow], none, 0)]) :=
  (tmdbSync_saveMovie_frame [sampleMovieRow] sampleTmdbPayload (by simp)).1

/-! ### C8: watchlist membership -/

lemma addToWatchlist_ok_cases (db : Db) (u m : Nat) (db1 : Db) (usr1 : User)
    (hok : UsersService.addToWatchlist db u m = .ok (db1, usr1)) :
    ∃ usr mv, findUser db u = some usr ∧ findMovie db m = some mv ∧
      ((usr.watchlist.any (fun x => x.id == m) = true ∧ db1 = db ∧ usr1 = usr) ∨
       (usr.watchlist.any (fun x => x.id == m) = false ∧
        usr1 = { usr with watchlist := usr.watchlist ++ [mv] } ∧
        db1 = { db with users := saveUserRow db.users usr1 })) := by
  rw [UsersService.addToWatchlist] at hok
  cases hu : findUser db u with
  | none => rw [hu] at hok; exact absurd hok (by simp)
  | some usr =>
    rw [hu] at hok
    cases hm : findMovie db m with
    | none => rw [hm] at hok; exact absurd hok (by simp)
    | some mv =>
      rw [hm] at hok
      dsimp only at hok
      by_cases hin : usr.watchlist.any (fun x => x.id == m) = true
      · rw [if_pos hin] at hok
        have hpair := Except.ok.inj hok
        rw [Prod.mk.injEq] at hpair
        exact ⟨usr, mv, rfl, rfl, Or.inl ⟨hin, hpair.1.symm, hpair.2.symm⟩⟩
      · have hin' : usr.watchlist.any (fun x => x.id == m) = false := by
          revert hin; cases usr.watchlist.any (fun x => x.id == m) <;> simp
        rw [if_neg (by rw [hin']; simp)] at hok
        have hpair := Except.ok.inj hok
        rw [Prod.mk.injEq] at hpair
        refine ⟨usr, mv, rfl, rfl, Or.inr ⟨hin', hpair.2.symm, ?_⟩⟩
        rw [← hpair.1, hpair.2]

/-- C8: the watchlist behaves as set membership: `addToWatchlist$` throws
`NotFoundException` when the movie does not exist; adding a movie already in
the watchlist returns the user unchanged without a save; a second add of the
same movie leaves exactly the state of the first; an add never introduces a
duplicate movie id; and `removeFromWatchlist$` filters every occurrence of
the movie id out (none remains). -/
theorem users_watchlist_spec (db : Db) (u m : Nat) :
    (∀ usr, findUser db u = some usr → findMovie db m = none →
      UsersService.addToWatchlist db u m = .error (.notFound (movieNotFoundMsg m))) ∧
    (∀ usr mv, findUser db u = some usr → findMovie db m = some mv →
      usr.watchlist.any (fun x => x.id == m) = true →
      UsersService.addToWatchlist db u m = .ok (db, usr)) ∧
    (∀ db1 usr1, UsersService.addToWatchlist db u m = .ok (db1, usr1) →
      UsersService.addToWatchlist db1 u m = .ok (db1, usr1)) ∧
    (∀ usr db1 usr1, findUser db u = some usr →
      UsersService.addToWatchlist db u m = .ok (db1, usr1) →
      (usr.watchlist.map (fun x => x.id)).Nodup →
      (usr1.watchlist.map (fun x => x.id)).Nodup) ∧
    (∀ usr, findUser db u = some usr →
      ∃ db1 usr1, UsersService.removeFromWatchlist db u m = .ok (db1, usr1) ∧
        usr1.watchlist = usr.watchlist.filter (fun x => !(x.id == m)) ∧
        usr1.watchlist.all (fun x => !(x.id == m)) = true) := by
  refine ⟨?_, ?_, ?_, ?_, ?_⟩
  · intro usr hu hm
    simp [UsersService.addToWatchlist, hu, hm]
  · intro usr mv hu hm hin
    simp [UsersService.addToWatchlist, hu, hm, hin]
  · intro db1 usr1 hok
    obtain ⟨usr, mv, hu, hm, hcase⟩ := addToWatchlist_ok_cases db u m db1 usr1 hok
    have huid : usr.id = u := by
      have := List.find?_some hu; simpa using this
    have hmid : mv.id = m := by
      have := List.find?_some hm; simpa using this
    rcases hcase with ⟨hin, hdb, husr⟩ | ⟨hin, husr, hdb⟩
    · subst hdb; subst husr
      simp [UsersService.addToWatchlist, hu, hm, hin]
    · have husr1 : usr1.id = u := by rw [husr]; exact huid
      have hany2 : db.users.any (fun x => x.id == usr1.id) = true :=
        List.any_eq_true.mpr ⟨usr, List.mem_of_find?_eq_some hu, by simp [husr1, huid]⟩
      have hfun : (fun x : User => if x.id == usr1.id then usr1 else x)
          = (fun x : User => if x.id == u then usr1 else x) := by
        funext x; rw [husr1]
      have hu' : findUser db1 u = some usr1 := by
        rw [hdb]
        show (saveUserRow db.users usr1).find? (fun x => x.id == u) = some usr1
        rw [saveUserRow, if_pos hany2, hfun]
        refine find?_replace _ usr1 (by simp [husr1]) db.users ?_
        rw [findUser] at hu
        rw [hu]
        rfl
      have hm' : findMovie db1 m = some mv := by rw [hdb]; exact hm
      have hin' : usr1.watchlist.any (fun x => x.id == m) = true := by
        rw [husr]
        show (usr.watchlist ++ [mv]).any (fun x => x.id == m) = true
        simp [List.any_append, hmid]
      simp [UsersService.addToWatchlist, hu', hm', hin']
  · intro usr db1 usr1 hu hok hnd
    obtain ⟨usr', mv, hu', hm, hcase⟩ := addToWatchlist_ok_cases db u m db1 usr1 hok
    have husr' : usr' = usr := by rw [hu] at hu'; exact (Option.some.inj hu').symm
    rw [husr'] at hcase
    have hmid : mv.id = m := by
      have := List.find?_some hm; simpa using this
    rcases hcase with ⟨hin, hdb, husr⟩ | ⟨hin, husr, hdb⟩
    · subst husr; exact hnd
    · rw [husr]
      show ((usr.watchlist ++ [mv]).map (fun x => x.id)).Nodup
      rw [List.map_append]
      rw [List.nodup_append]
      refine ⟨hnd, by simp, ?_⟩
      intro a ha hb
      simp only [List.map_cons, List.map_nil, List.mem_singleton] at hb
      subst hb
      rw [List.any_eq_false] at hin
      obtain ⟨x, hx, hxa⟩ := List.mem_map.mp ha
      refine hin x hx ?_
      rw [← hxa] at hmid
      simp [hmid]
  · intro usr hu
    refine ⟨{ db with users := saveUserRow db.users { usr with watchlist := usr.watchlist.filter (fun x => !(x.id == m)) } }, { usr with watchlist := usr.watchlist.filter (fun x => !(x.id == m)) }, ?_, rfl, ?_⟩
    · simp [UsersService.removeFromWatchlist, hu]
    · rw [List.all_eq_true]
      intro x hx
      exact (List.mem_filter.mp hx).2

/-- C8 witness: adding a missing movie id to a stored user's watchlist fails
with the not-found error. -/
theorem users_watchlist_witness :
    UsersService.addToWatchlist
      { movies := [], ratings := [],
        users := [{ id := 1, username := "alice", email := "a@x.com",
                    password := "h", firstName := none, lastName := none,
                    isActive := true, watchlist := [], favorites := [] }] }
      1 99 = .error (.notFound (movieNotFoundMsg 99)) :=
  (users_watchlist_spec
    { movies := [], ratings := [],
      users := [{ id := 1, username := "alice", email := "a@x.com",
                  password := "h", firstName := none, lastName := none,
                  isActive := true, watchlist := [], favorites := [] }] }
    1 99).1
    { id := 1, username := "alice", email := "a@x.com", password := "h",
      firstName := none, lastName := none, isActive := true,
      watchlist := [], favorites := [] }
    rfl rfl

/-! ### C10: login response shape -/

/-- C10: a successful `login$` answers with the matched user stripped of its
`password` field (the `UserWithoutPassword` record has no such field) and a
JWT whose payload is exactly `{ sub: user.id, username, email }`. -/
theorem users_login_spec (checkPw : String → String → Bool) (db : Db)
    (username password : String) (resp : UsersService.AuthResponse)
    (h : UsersService.login checkPw db username password = .ok resp) :
    ∃ user, UsersService.findByUsernameOrEmail db username = some user ∧
      checkPw password user.password = true ∧
      resp.user = UsersService.stripPassword user ∧
      resp.accessToken =
        { sub := user.id, username := user.username, email := user.email } := by
  rw [UsersService.login, UsersService.validateUser] at h
  cases hf : UsersService.findByUsernameOrEmail db username with
  | none => rw [hf] at h; simp [Except.map] at h
  | some user =>
    rw [hf] at h
    by_cases hc : checkPw password user.password = true
    · simp only [hc, if_true, Except.map, Except.ok.injEq] at h
      exact ⟨user, rfl, hc, by rw [← h], by rw [← h]⟩
    · have hc' : checkPw password user.password = false := by
        revert hc; cases checkPw password user.password <;> simp
      simp [hc', Except.map] at h

/-- C10 witness: a concrete successful login, exhibiting the stripped user
and the three-claim payload. -/
theorem users_login_witness :
    ∃ user, UsersService.findByUsernameOrEmail
        { movies := [], ratings := [],
          users := [{ id := 1, username := "alice", email := "a@x.com",
                      password := "hash1", firstName := none, lastName := none,
                      isActive := true, watchlist := [], favorites := [] }] }
        "alice" = some user ∧
      (fun (p s : String) => p == s) "hash1" user.password = true ∧
      (UsersService.AuthResponse.mk
        { id := 1, username := "alice", email := "a@x.com", firstName := none,
          lastName := none, isActive := true, watchlist := [], favorites := [] }
        { sub := 1, username := "alice", email := "a@x.com" }).user =
          UsersService.stripPassword user ∧
      (UsersService.AuthResponse.mk
        { id := 1, username := "alice", email := "a@x.com", firstName := none,
          lastName := none, isActive := true, watchlist := [], favorites := [] }
        { sub := 1, username := "alice", email := "a@x.com" }).accessToken =
        { sub := user.id, username := user.username, email := user.email } :=
  users_login_spec (fun p s => p == s)
    { movies := [], ratings := [],
      users := [{ id := 1, username := "alice", email := "a@x.com",
                  password := "hash1", firstName := none, lastName := none,
                  isActive := true, watchlist := [], favorites := [] }] }
    "alice" "hash1"
    (UsersService.AuthResponse.mk
      { id := 1, username := "alice", email := "a@x.com", firstName := none,
        lastName := none, isActive := true, watchlist := [], favorites := [] }
      { sub := 1, username := "alice", email := "a@x.com" })
    rfl

end Kib
